import Mathlib

/-!
Verification of the event-content-generator pipeline (a LangGraph-style
multi-stage content generation workflow) against its design document.

The Python sources are shallowly embedded as executable Lean definitions:
  * `src/schemas.py`       → the data model (`Claim`, `ChannelDraft`, ...)
  * `src/graph.py`         → the loop controller `should_continue` and the
                             Draft→Critic→Verify cycle
  * `src/nodes/*.py`       → the six stage functions, with every external
                             collaborator (ChromaDB index, OpenAI completion
                             service, Gemini image service, wall clock,
                             run-id generator) passed in as an explicit
                             oracle argument
  * `src/rag/retrieve.py`  → `retrieve_chunks` and its fallback sets
  * `app.py`               → the clean-copy transform `strip_citations`

Python regular-expression searches are embedded as explicit scanning
functions over `List Char`, reproducing the leftmost-match discipline,
the greedy/lazy quantifier behaviour of the concrete patterns used, and
Python's `$` (end of text, or just before a final newline).  Character
classes are modelled at ASCII granularity, which covers every character
the program manipulates.
-/

namespace EventContentGen

/-! ## Character-level utilities (Python `\s`, `\w`, case folding) -/

/-- Python's `\s` class restricted to ASCII, as used by `re` and `str.strip`. -/
def isPySpace (c : Char) : Bool :=
  c = ' ' || c = '\t' || c = '\n' || c = '\r' || c = '\x0b' || c = '\x0c'

/-- Python's `\w` class restricted to ASCII: letters, digits, underscore. -/
def isWordChar (c : Char) : Bool :=
  ('a' ≤ c && c ≤ 'z') || ('A' ≤ c && c ≤ 'Z') || ('0' ≤ c && c ≤ '9') || c = '_'

/-- ASCII lower-casing of one character (Python `str.lower` on ASCII). -/
def lowerCh (c : Char) : Char :=
  if 'A' ≤ c && c ≤ 'Z' then Char.ofNat (c.toNat + 32) else c

/-- ASCII upper-casing of one character (Python `str.upper` on ASCII). -/
def upperCh (c : Char) : Char :=
  if 'a' ≤ c && c ≤ 'z' then Char.ofNat (c.toNat - 32) else c

def lowerStr (cs : List Char) : List Char := cs.map lowerCh

def upperStr (cs : List Char) : List Char := cs.map upperCh

/-- Case-insensitive `List.isPrefixOf`. -/
def startsWithCI (pat cs : List Char) : Bool :=
  match pat, cs with
  | [], _ => true
  | _ :: _, [] => false
  | p :: ps, c :: rest => lowerCh c = lowerCh p && startsWithCI ps rest

/-- Case-sensitive prefix test. -/
def startsWith (pat cs : List Char) : Bool :=
  match pat, cs with
  | [], _ => true
  | _ :: _, [] => false
  | p :: ps, c :: rest => c = p && startsWith ps rest

/-- Does `pat` occur (case-insensitively) anywhere in `cs`? -/
def containsCI (pat : List Char) : List Char → Bool
  | [] => startsWithCI pat []
  | c :: rest => startsWithCI pat (c :: rest) || containsCI pat rest

/-- Python `str.strip()` (ASCII whitespace, both ends). -/
def pyStrip (cs : List Char) : List Char :=
  ((cs.dropWhile isPySpace).reverse.dropWhile isPySpace).reverse

/-- Python `str.strip(chars)` for an explicit character set. -/
def pyStripSet (set : List Char) (cs : List Char) : List Char :=
  ((cs.dropWhile (set.contains ·)).reverse.dropWhile (set.contains ·)).reverse

/-- Python `str.lstrip(chars)` for an explicit character set. -/
def pyLStripSet (set : List Char) (cs : List Char) : List Char :=
  cs.dropWhile (set.contains ·)

/-- Split on newline characters (Python `str.split("\n")`). -/
def splitLines (cs : List Char) : List (List Char) :=
  List.splitOn '\n' cs

/-! ## Data model (`src/schemas.py`)

Scores carry the documented 0–10 range as a comment rather than a
subtype: the pydantic `ge`/`le` bounds are validation, not structure. -/

/-- `Claim` from `src/schemas.py`: a factual claim traced to a source. -/
structure Claim where
  text : String
  source_chunk_id : Option String := none
  is_supported : Bool := false
  deriving Repr, DecidableEq

/-- `ChannelDraft` from `src/schemas.py`. -/
structure ChannelDraft where
  channel : String
  headline : Option String := none
  body : String
  cta : String
  subject_line : Option String := none
  claims : List Claim := []
  deriving Repr, DecidableEq

/-- `CriticFeedback` from `src/schemas.py` (scores are 0–10 integers). -/
structure CriticFeedback where
  brand_voice_score : Nat
  cta_clarity_score : Nat
  length_ok : Bool
  issues : List String := []
  fixes : List String := []
  passed : Bool
  deriving Repr, DecidableEq

/-- A structured value, standing in for the arbitrary JSON-like values the
Python code stores in audit-entry `details` dictionaries. -/
inductive JVal where
  | s (v : String)
  | n (v : Nat)
  | b (v : Bool)
  | list (vs : List JVal)
  | obj (kvs : List (String × JVal))
  | null
  deriving Repr

/-- `AuditLogEntry` from `src/schemas.py`. -/
structure AuditEntry where
  node : String
  timestamp : String
  action : String
  details : List (String × JVal) := []
  deriving Repr

/-- A retrieved chunk as the dicts built in `src/rag/retrieve.py`
(`{"id": ..., "text": ..., "source": ...}`). -/
structure SourceChunkR where
  id : String
  text : String
  source : String
  deriving Repr, DecidableEq

/-- A `{"label": ..., "url": ...}` entry of `relevant_urls`. -/
structure UrlRef where
  label : String
  url : String
  deriving Repr, DecidableEq

/-- One per-channel entry of `final_output["content"]`
(`src/nodes/exporter.py` lines 26–33). -/
structure ChannelContent where
  headline : Option String
  body : String
  cta : String
  subject_line : Option String
  deriving Repr, DecidableEq

/-- `final_output["scorecard"]` (`src/nodes/exporter.py` lines 35–46). -/
structure Scorecard where
  brand_voice_score : Option Nat
  cta_clarity_score : Option Nat
  iterations : Nat
  passed : Bool
  deriving Repr, DecidableEq

/-- One row of `final_output["claims_table"]` (`src/nodes/exporter.py`
lines 48–59). -/
structure ClaimRow where
  claim : String
  source : Option String
  is_supported : Bool
  channel : String
  deriving Repr, DecidableEq

/-- `final_output["audit_log"]["input"]` (`src/nodes/exporter.py`
lines 71–78). -/
structure InputSnapshot where
  event_title : String
  event_description : String
  event_date : Option String
  target_audience : String
  key_messages : List String
  channels : List String
  deriving Repr, DecidableEq

/-- `final_output["audit_log"]` (`src/nodes/exporter.py` lines 68–84). -/
structure AuditSection where
  run_id : String
  timestamp : String
  input : InputSnapshot
  brand_chunks_retrieved : Nat
  product_chunks_retrieved : Nat
  iterations : List AuditEntry
  deriving Repr

/-- The `final_output` dict built by `export_node`
(`src/nodes/exporter.py` lines 62–85). -/
structure FinalOutput where
  content : List (String × ChannelContent)
  images : List (String × List Nat)
  relevant_urls : List UrlRef
  scorecard : Scorecard
  claims_table : List ClaimRow
  audit_log : AuditSection
  deriving Repr

/-- `ContentGeneratorState` from `src/schemas.py`.  The Python `TypedDict`
is total=False, but `run_pipeline` initialises every key, and every node
reads missing keys through `.get` with exactly the defaults used here, so
a total record is a faithful model of every reachable state.  Dictionaries
are insertion-ordered association lists, as in CPython.  Image bytes are
modelled as `List Nat`. -/
structure PState where
  event_title : String := ""
  event_description : String := ""
  event_date : Option String := none
  target_audience : String := ""
  key_messages : List String := []
  channels : List String := []
  relevant_urls : List UrlRef := []
  brand_chunks : List SourceChunkR := []
  product_chunks : List SourceChunkR := []
  drafts : List (String × ChannelDraft) := []
  critic_feedback : Option CriticFeedback := none
  iteration : Nat := 0
  final_output : Option FinalOutput := none
  audit_log : List AuditEntry := []
  images : List (String × List Nat) := []
  deriving Repr

/-- Python `dict` assignment `d[k] = v`: overwrite in place if the key
exists, else append at the end (insertion order). -/
def dictInsert (k : String) (v : α) : List (String × α) → List (String × α)
  | [] => [(k, v)]
  | (k2, v2) :: rest => if k2 = k then (k, v) :: rest else (k2, v2) :: dictInsert k v rest

/-! ## Loop controller (`src/graph.py`, `should_continue`) -/

/-- `should_continue` from `src/graph.py` lines 186–217, transcribed
check for check: iteration cap, then critic verdict, then unsupported
claims, else export. -/
def should_continue (state : PState) : String :=
  if state.iteration ≥ 3 then "export"
  else
    match state.critic_feedback with
    | some fb =>
      if ¬ fb.passed then "draft"
      else if (state.drafts.any fun cd => cd.2.claims.any fun c => ¬ c.is_supported)
        then "draft" else "export"
    | none =>
      if (state.drafts.any fun cd => cd.2.claims.any fun c => ¬ c.is_supported)
        then "draft" else "export"

/-- Spec-side predicate: critic feedback exists and reports failure. -/
def feedbackFailed (state : PState) : Bool :=
  match state.critic_feedback with
  | some fb => ¬ fb.passed
  | none => false

/-- Spec-side predicate: some claim of some draft is unsupported. -/
def hasUnsupportedClaim (state : PState) : Bool :=
  state.drafts.any fun cd => cd.2.claims.any fun c => ¬ c.is_supported

/-! ## Embedded regular-expression scans

Each Python `re` pattern used by the program is embedded as a dedicated
scanning function reproducing `re.search`/`re.sub`/`re.findall` leftmost
semantics for that concrete pattern.  Python's `$` (no MULTILINE) matches
at the end of the text or just before one final newline. -/

def strOf (cs : List Char) : String := ⟨cs⟩

/-- Python `$` (without MULTILINE) succeeds at a position iff the rest of
the text is empty or a single final newline. -/
def dollarAt (suffix : List Char) : Bool :=
  match suffix with
  | [] => true
  | ['\n'] => true
  | _ => false

/-- The lazy `(.+?)(?=LOOK|$)` tail (DOTALL): having committed to at least
one character, extend minimally until the lookahead (or `$`) succeeds on
the rest.  The caller guarantees a nonempty input. -/
def lazyFrom (look : List Char → Bool) : List Char → List Char
  | [] => []
  | c :: rest => if look rest || dollarAt rest then [c] else c :: lazyFrom look rest

/-- Matching of the tail `\s*(.+?)(?=LOOK|$)` (DOTALL) right after a
marker literal: `\s*` greedily takes the whitespace prefix and the lazy
group follows; when only whitespace (and at least one character) remains,
the engine backtracks `\s*` by one and the group captures the final
character with `$` right after it; when nothing remains the attempt at
this occurrence of the marker fails. -/
def tailCapture (look : List Char → Bool) (tail : List Char) : Option (List Char) :=
  let rest := tail.dropWhile isPySpace
  match rest with
  | _ :: _ => some (lazyFrom look rest)
  | [] =>
    match tail.getLast? with
    | some c => some [c]
    | none => none

/-- `re.search` for a pattern `MARKER\s*(.+?)(?=LOOK|$)` with IGNORECASE
and DOTALL: try each occurrence of the marker from the left, returning
the group captured at the first occurrence whose tail matches. -/
def searchMarkerCI (marker : List Char) (look : List Char → Bool) : List Char → Option (List Char)
  | [] => none
  | c :: rest =>
    if startsWithCI marker (c :: rest) then
      match tailCapture look ((c :: rest).drop marker.length) with
      | some cap => some cap
      | none => searchMarkerCI marker look rest
    else searchMarkerCI marker look rest

/-- Lookahead `\n(?:SUBJECT|BODY|CTA|CLAIMS)` of the HEADLINE pattern. -/
def lookHeadline (s : List Char) : Bool :=
  startsWithCI "\nSUBJECT".data s || startsWithCI "\nBODY".data s ||
  startsWithCI "\nCTA".data s || startsWithCI "\nCLAIMS".data s

/-- Lookahead `\n(?:BODY|CTA|CLAIMS)` of the SUBJECT pattern. -/
def lookSubject (s : List Char) : Bool :=
  startsWithCI "\nBODY".data s || startsWithCI "\nCTA".data s ||
  startsWithCI "\nCLAIMS".data s

/-- Lookahead `\nCTA:|CLAIMS:` of the BODY pattern (note: the `CLAIMS:`
alternative has no leading newline in the source pattern). -/
def lookBody (s : List Char) : Bool :=
  startsWithCI "\nCTA:".data s || startsWithCI "CLAIMS:".data s

/-- Lookahead `\nCLAIMS:` of the CTA pattern. -/
def lookCta (s : List Char) : Bool :=
  startsWithCI "\nCLAIMS:".data s

/-- Lookahead `\nSOURCE:|\n` of the verifier's CLAIM pattern. -/
def lookClaim (s : List Char) : Bool :=
  startsWithCI "\nSOURCE:".data s ||
  (match s with | '\n' :: _ => true | _ => false)

/-- The post-processing applied to HEADLINE/SUBJECT/CTA captures:
`.strip()`, then if a newline remains keep only the first line,
stripped again. -/
def firstLineStrip (cap : List Char) : String :=
  let st := pyStrip cap
  if st.contains '\n' then strOf (pyStrip ((splitLines st).headD []))
  else strOf st

/-- One attempt of the pattern `\[source:\s*(\w+)\]` at the current
position (case-sensitive, deterministic: every quantifier is followed by
a character its class excludes).  Returns the captured `\w+` group and
the text after the match. -/
def matchSrcMarkerAt (cs : List Char) : Option (List Char × List Char) :=
  if startsWith "[source:".data cs then
    let afterWs := (cs.drop 8).dropWhile isPySpace
    let tok := afterWs.takeWhile isWordChar
    if tok = [] then none
    else
      match afterWs.drop tok.length with
      | ']' :: rest2 => some (tok, rest2)
      | _ => none
  else none

theorem startsWith_le_length (pat cs : List Char) (h : startsWith pat cs = true) :
    pat.length ≤ cs.length := by
  induction pat generalizing cs with
  | nil => simp
  | cons p ps ih =>
    cases cs with
    | nil => simp [startsWith] at h
    | cons c rest =>
      simp only [startsWith, Bool.and_eq_true] at h
      simpa using Nat.succ_le_succ (ih rest h.2)

theorem matchSrcMarkerAt_length {cs tok after : List Char}
    (h : matchSrcMarkerAt cs = some (tok, after)) : after.length < cs.length := by
  unfold matchSrcMarkerAt at h
  by_cases hs : startsWith "[source:".data cs = true
  case neg => simp [hs] at h
  simp only [hs, if_true] at h
  have hlen : 8 ≤ cs.length := by
    have := startsWith_le_length _ _ hs
    simpa using this
  set afterWs := (cs.drop 8).dropWhile isPySpace with hAW
  have hAWlen : afterWs.length ≤ cs.length - 8 := by
    have h1 : afterWs.length ≤ (cs.drop 8).length :=
      (List.dropWhile_sublist isPySpace).length_le
    simpa using h1
  set tok2 := afterWs.takeWhile isWordChar with hT
  by_cases ht : tok2 = []
  · simp [ht] at h
  · simp only [ht, if_false] at h
    revert h
    cases hdrop : afterWs.drop tok2.length with
    | nil => intro h; simp at h
    | cons c0 rest2 =>
      intro h
      by_cases hc0 : c0 = ']'
      · subst hc0
        simp only [Option.some.injEq, Prod.mk.injEq] at h
        have hrest : rest2.length + 1 = afterWs.length - tok2.length := by
          have := congrArg List.length hdrop
          simpa using this.symm
        have : after.length = rest2.length := by rw [← h.2]
        omega
      · simp [hc0] at h

/-- First match of `\[source:\s*(\w+)\]` anywhere in the text
(`re.search` used on a drafter claim line). -/
def searchSrcMarker : List Char → Option (List Char)
  | [] => none
  | c :: rest =>
    match matchSrcMarkerAt (c :: rest) with
    | some (tok, _) => some tok
    | none => searchSrcMarker rest

/-- `re.sub(r"\[source:\s*\w+\]", "", text)`: delete every leftmost
match, resuming after the deleted text.  The `Nat` argument bounds the
number of scan steps; every step strictly shortens the text (by
`matchSrcMarkerAt_length`), so with the text's length as the bound the
zero-fuel branch is unreachable. -/
def removeSrcMarkersGo : Nat → List Char → List Char
  | 0, _ => []
  | _ + 1, [] => []
  | fuel + 1, c :: rest =>
    match matchSrcMarkerAt (c :: rest) with
    | some (_, after) => removeSrcMarkersGo fuel after
    | none => c :: removeSrcMarkersGo fuel rest

def removeSrcMarkers (cs : List Char) : List Char := removeSrcMarkersGo cs.length cs

/-- The class `[^.!?\n]` of the inline-citation pattern. -/
def inlineA (c : Char) : Bool :=
  ¬ (c = '.' || c = '!' || c = '?' || c = '\n')

/-- One attempt of the whole inline-citation pattern with the greedy
`[^.!?\n]*` fixed at `L` characters: the marker must match at `cs.drop L`,
then the forward `[^.!?\n]*` is greedy and `[.!?]?` takes one char if
available.  Returns (whole match, token group, rest after match). -/
def inlineAttempt (cs : List Char) (L : Nat) : Option (List Char × List Char × List Char) :=
  match matchSrcMarkerAt (cs.drop L) with
  | some (tok, afterM) =>
    let fwd := afterM.takeWhile inlineA
    let afterF := afterM.drop fwd.length
    let pr :=
      match afterF with
      | c :: r => if c = '.' || c = '!' || c = '?' then ([c], r) else (([] : List Char), afterF)
      | [] => ([], [])
    let markerLen := (cs.drop L).length - afterM.length
    some (cs.take L ++ (cs.drop L).take markerLen ++ fwd ++ pr.1, tok, pr.2)
  | none => none

/-- Backtracking of the greedy `[^.!?\n]*` before the marker in the
inline-citation pattern: try the longest prefix of sentence characters
first, shrinking until the rest of the pattern matches right after it. -/
def tryInlineBack (cs : List Char) : Nat → Option (List Char × List Char × List Char)
  | 0 => inlineAttempt cs 0
  | L + 1 =>
    match inlineAttempt cs (L + 1) with
    | some r => some r
    | none => tryInlineBack cs L

/-- One attempt of `([^.!?\n]*\[source:\s*(\w+)\][^.!?\n]*[.!?]?)` at the
current position. -/
def tryInlineAt (cs : List Char) : Option (List Char × List Char × List Char) :=
  tryInlineBack cs (cs.takeWhile inlineA).length

theorem inlineAttempt_length {cs full tok after : List Char} {L : Nat}
    (h : inlineAttempt cs L = some (full, tok, after)) : after.length < cs.length := by
  unfold inlineAttempt at h
  revert h
  cases hm : matchSrcMarkerAt (cs.drop L) with
  | none => intro h; simp at h
  | some pr =>
    intro h
    obtain ⟨tok2, afterM⟩ := pr
    have hlt : afterM.length < (cs.drop L).length := matchSrcMarkerAt_length hm
    simp only [Option.some.injEq, Prod.mk.injEq] at h
    have hdropF : after.length ≤ afterM.length := by
      rcases h with ⟨-, -, h3⟩
      rw [← h3]
      cases hAF : afterM.drop (afterM.takeWhile inlineA).length with
      | nil => simp [hAF]
      | cons c r =>
        have hlenAF : (afterM.drop (afterM.takeWhile inlineA).length).length ≤ afterM.length := by
          simp
        rw [hAF] at hlenAF
        by_cases hp : c = '.' || c = '!' || c = '?'
        · simp only [hAF, hp, if_true]
          simp at hlenAF ⊢
          omega
        · simp only [hAF, hp, if_false]
          simpa [hAF] using hlenAF
    have hds : (cs.drop L).length ≤ cs.length := by simp
    omega

theorem tryInlineBack_length {cs full tok after : List Char} {L : Nat}
    (h : tryInlineBack cs L = some (full, tok, after)) : after.length < cs.length := by
  induction L with
  | zero => exact inlineAttempt_length h
  | succ L2 ih =>
    unfold tryInlineBack at h
    revert h
    cases ha : inlineAttempt cs (L2 + 1) with
    | none => intro h; exact ih h
    | some r =>
      intro h
      simp only [Option.some.injEq] at h
      subst h
      exact inlineAttempt_length ha

theorem tryInlineAt_length {cs full tok after : List Char}
    (h : tryInlineAt cs = some (full, tok, after)) : after.length < cs.length :=
  tryInlineBack_length h

/-- `re.findall` for the inline-citation pattern: scan left to right,
collecting non-overlapping matches as (group 1, group 2) pairs.  The
`Nat` argument bounds the scan steps; every step strictly shortens the
text (by `tryInlineAt_length`), so with the text's length as the bound
the zero-fuel branch is unreachable. -/
def inlineFindAllGo : Nat → List Char → List (List Char × List Char)
  | 0, _ => []
  | _ + 1, [] => []
  | fuel + 1, c :: rest =>
    match tryInlineAt (c :: rest) with
    | some (full, tok, after) => (full, tok) :: inlineFindAllGo fuel after
    | none => inlineFindAllGo fuel rest

def inlineFindAll (cs : List Char) : List (List Char × List Char) :=
  inlineFindAllGo cs.length cs

/-! ## Drafter response parsing (`src/nodes/drafter.py`, `_parse_draft_response`) -/

/-- Parsing of the `CLAIMS:` section lines: keep each line that strips to
something nonempty, strip it and remove leading `- ` characters, look for
a `[source: id]` marker, delete all markers, and emit a claim whose
support flag is simply the presence of a marker. -/
def parseClaimLines (claims_text : List Char) : List Claim :=
  (splitLines claims_text).filterMap fun line =>
    let st := pyStrip line
    if st = [] then none
    else
      let claim_line := pyLStripSet ['-', ' '] st
      let source_id := searchSrcMarker claim_line
      let claim_text := pyStrip (removeSrcMarkers claim_line)
      if claim_text = [] then none
      else some { text := strOf claim_text,
                  source_chunk_id := source_id.map strOf,
                  is_supported := source_id.isSome }

/-- The drafter's inline-citation loop: for each `(full match, token)`
pair found in the body, remove the markers from the matched text, strip
punctuation, and append a claim marked supported unless its lower-cased
text duplicates an already collected claim. -/
def inlineFold (acc : List Claim) : List (List Char × List Char) → List Claim
  | [] => acc
  | (full, tok) :: rest =>
    let ct := pyStripSet ['.', ',', '!', '?', ' '] (pyStrip (removeSrcMarkers full))
    if ct ≠ [] ∧ strOf (lowerStr ct) ∉ acc.map (fun c => strOf (lowerStr c.text.data)) then
      inlineFold (acc ++ [{ text := strOf ct, source_chunk_id := some (strOf tok),
                            is_supported := true }]) rest
    else inlineFold acc rest

/-- `_parse_draft_response` from `src/nodes/drafter.py` lines 96–188. -/
def parse_draft_response (channel : String) (response_text : String) : ChannelDraft :=
  let cs := response_text.data
  let headline := (searchMarkerCI "HEADLINE:".data lookHeadline cs).map firstLineStrip
  let subject_line := (searchMarkerCI "SUBJECT:".data lookSubject cs).map firstLineStrip
  let body :=
    match searchMarkerCI "BODY:".data lookBody cs with
    | some cap => strOf (pyStrip cap)
    | none => response_text
  let cta :=
    match searchMarkerCI "CTA:".data lookCta cs with
    | some cap => firstLineStrip cap
    | none => "Learn more"
  let sectionClaims :=
    match searchMarkerCI "CLAIMS:".data (fun _ => false) cs with
    | some cap => parseClaimLines (pyStrip cap)
    | none => []
  let claims := inlineFold sectionClaims (inlineFindAll body.data)
  { channel, headline, body, cta, subject_line, claims }

/-! ## Critic response parsing (`src/nodes/critic.py`, `_parse_critic_response`)

The source is a placeholder: it ignores the response text entirely and
returns a fixed passing feedback (`TODO: Implement proper structured
output parsing. ... Default to passing for now`). -/

/-- `_parse_critic_response` from `src/nodes/critic.py` lines 82–103. -/
def parse_critic_response (response_text : String) : CriticFeedback :=
  { brand_voice_score := 8
    cta_clarity_score := 8
    length_ok := true
    issues := []
    fixes := []
    passed := true }

/-! ## Verifier response parsing (`src/nodes/verifier.py`, `_extract_claims`) -/

/-- `re.split(r'\n---\n|\n\n(?=CLAIM:)', text)`: cut at each leftmost
separator; a `\n\n` separator is only taken when the (unconsumed)
lookahead `CLAIM:` follows. -/
def splitBlocksAux (cur : List Char) : List Char → List (List Char)
  | [] => [cur]
  | '\n' :: '-' :: '-' :: '-' :: '\n' :: rest => cur :: splitBlocksAux [] rest
  | '\n' :: '\n' :: rest =>
    if startsWith "CLAIM:".data rest then cur :: splitBlocksAux [] rest
    else splitBlocksAux (cur.concat '\n') ('\n' :: rest)
  | c :: rest => splitBlocksAux (cur.concat c) rest

def splitBlocks (cs : List Char) : List (List Char) := splitBlocksAux [] cs

/-- `re.search(r'SOURCE:\s*(\S+)', block, IGNORECASE)`: first occurrence
of `SOURCE:` followed (after optional whitespace) by a nonempty
non-whitespace token. -/
def searchSourceTok : List Char → Option (List Char)
  | [] => none
  | c :: rest =>
    if startsWithCI "SOURCE:".data (c :: rest) then
      let tok := (((c :: rest).drop 7).dropWhile isPySpace).takeWhile (fun ch => ¬ isPySpace ch)
      if tok = [] then searchSourceTok rest else some tok
    else searchSourceTok rest

/-- `re.search(r'SUPPORTED:\s*(true|false)', block, IGNORECASE)`. -/
def searchSupportedTok : List Char → Option Bool
  | [] => none
  | c :: rest =>
    if startsWithCI "SUPPORTED:".data (c :: rest) then
      let after := ((c :: rest).drop 10).dropWhile isPySpace
      if startsWithCI "true".data after then some true
      else if startsWithCI "false".data after then some false
      else searchSupportedTok rest
    else searchSupportedTok rest

/-- Per-block claim extraction of `_extract_claims` (`src/nodes/verifier.py`
lines 135–158): parse `CLAIM:`/`SOURCE:`/`SUPPORTED:`, normalize a `NONE`
source to unsupported, force a `user_input` source to supported, and keep
the claim only when its text is nonempty and longer than 5 characters. -/
def processBlock (block : List Char) : Option Claim :=
  match searchMarkerCI "CLAIM:".data lookClaim block with
  | none => none
  | some cap =>
    let claim_text := pyStrip cap
    let source_id0 := (searchSourceTok block).map pyStrip
    let is_supported0 :=
      match searchSupportedTok block with
      | some b => b
      | none => false
    let cleaned :=
      match source_id0 with
      | some s =>
        if strOf (upperStr s) = "NONE" then ((none : Option (List Char)), false)
        else if strOf (lowerStr s) = "user_input" then (some s, true)
        else (some s, is_supported0)
      | none => (none, is_supported0)
    if claim_text ≠ [] ∧ claim_text.length > 5 then
      some { text := strOf claim_text,
             source_chunk_id := cleaned.1.map strOf,
             is_supported := cleaned.2 }
    else none

/-- The response-parsing part of `_extract_claims` (`src/nodes/verifier.py`
lines 128–160), as a function of the completion service's reply. -/
def extract_claims_text (response_text : String) : List Claim :=
  (splitBlocks response_text.data).filterMap processBlock

/-! ## Clean-copy transform (`app.py`, `strip_citations`) -/

/-- One attempt of `\s*\[source:\s*\w+\]\.?` at the current position:
greedy whitespace, then the marker, then an optional dot.  Returns the
rest after the match. -/
def matchCiteAt (cs : List Char) : Option (List Char) :=
  match matchSrcMarkerAt (cs.dropWhile isPySpace) with
  | some (_, after) =>
    some (match after with
          | '.' :: r => r
          | _ => after)
  | none => none

theorem matchCiteAt_length {cs after : List Char}
    (h : matchCiteAt cs = some after) : after.length < cs.length := by
  unfold matchCiteAt at h
  revert h
  cases hm : matchSrcMarkerAt (cs.dropWhile isPySpace) with
  | none => intro h; simp at h
  | some pr =>
    intro h
    obtain ⟨tok2, afterM⟩ := pr
    have hlt : afterM.length < (cs.dropWhile isPySpace).length := matchSrcMarkerAt_length hm
    have hle : (cs.dropWhile isPySpace).length ≤ cs.length :=
      (List.dropWhile_sublist isPySpace).length_le
    simp only [Option.some.injEq] at h
    have hlen : after.length ≤ afterM.length := by
      rw [← h]
      split
      · simp
      · exact le_refl _
    omega

/-- `re.sub(r'\s*\[source:\s*\w+\]\.?', '', text)`: delete every leftmost
match, resuming after the deleted text.  The `Nat` argument bounds the
scan steps; every step strictly shortens the text (by
`matchCiteAt_length`), so with the text's length as the bound the
zero-fuel branch is unreachable. -/
def subCitesGo : Nat → List Char → List Char
  | 0, _ => []
  | _ + 1, [] => []
  | fuel + 1, c :: rest =>
    match matchCiteAt (c :: rest) with
    | some after => subCitesGo fuel after
    | none => c :: subCitesGo fuel rest

def subCites (cs : List Char) : List Char := subCitesGo cs.length cs

/-- `re.sub(r'  +', ' ', text)`: each maximal run of two or more spaces
becomes one space.  Implemented one character at a time: a space
immediately followed by another space is dropped, which keeps exactly
the last space of every run — the same output the leftmost greedy
replacement produces. -/
def collapseSpaces : List Char → List Char
  | [] => []
  | [c] => [c]
  | c1 :: c2 :: rest =>
    if c1 = ' ' && c2 = ' ' then collapseSpaces (c2 :: rest)
    else c1 :: collapseSpaces (c2 :: rest)

/-- `strip_citations` from `app.py` lines 15–26. -/
def strip_citations (text : String) : String :=
  if text = "" then text
  else strOf (pyStrip (collapseSpaces (subCites text.data)))

/-- Any position in the text where `\[source:\s*\w+\]` matches: the
formal reading of "the text contains a citation marker". -/
def hasCitationMarker : List Char → Bool
  | [] => false
  | c :: rest => (matchSrcMarkerAt (c :: rest)).isSome || hasCitationMarker rest

/-- Two consecutive spaces somewhere in the text. -/
def hasDoubleSpace : List Char → Bool
  | c1 :: c2 :: rest => (c1 = ' ' && c2 = ' ') || hasDoubleSpace (c2 :: rest)
  | _ => false

/-- The first character, if any, is not whitespace. -/
def headNotWs (cs : List Char) : Bool :=
  match cs.head? with
  | some c => ¬ isPySpace c
  | none => true

/-! ## Prompt builders (`src/prompts.py`)

The spec's non-goals (§1) put prompt wording out of scope, and no claim
depends on it; each builder is embedded keeping its full dependence on
every argument (so two calls agree exactly when the Python calls receive
equal arguments) while abbreviating the surrounding fixed template
text.  `get_image_prompt`'s channel-style table is kept verbatim since
it selects per-channel behaviour. -/

def format_urls_for_prompt (urls : List UrlRef) : String :=
  if urls = [] then "No URLs provided"
  else String.intercalate "\n" (urls.map fun u => "- " ++ u.label ++ ": " ++ u.url)

def get_drafter_prompt (channel event_title event_description : String)
    (event_date : Option String) (target_audience : String)
    (key_messages : List String) (brand_context product_context feedback : String)
    (relevant_urls : List UrlRef) : String :=
  "drafter-prompt|" ++ channel ++ "|" ++ event_title ++ "|" ++ event_description ++ "|"
    ++ (match event_date with | some d => if d = "" then "TBD" else d | none => "TBD") ++ "|"
    ++ target_audience ++ "|"
    ++ String.intercalate "\n" (key_messages.map ("- " ++ ·)) ++ "|"
    ++ brand_context ++ "|" ++ product_context ++ "|"
    ++ (if relevant_urls = [] then "No URLs provided - use generic CTA language."
        else format_urls_for_prompt relevant_urls) ++ "|"
    ++ feedback

def get_critic_prompt (drafts brand_context : String) (channels : List String) : String :=
  "critic-prompt|" ++ brand_context ++ "|" ++ drafts ++ "|"
    ++ String.intercalate "," channels

def get_verifier_prompt (content sources event_context : String) : String :=
  "verifier-prompt|" ++ content ++ "|" ++ sources ++ "|" ++ event_context

def get_image_prompt (channel headline event_title target_audience : String) : String :=
  let style :=
    if channel = "linkedin" then
      "Professional corporate photography, clean modern design, business atmosphere"
    else if channel = "facebook" then
      "Vibrant engaging social media graphic, eye-catching colors, dynamic composition"
    else if channel = "email" then
      "Clean professional header image, minimalist design, elegant typography space"
    else if channel = "web" then
      "Hero banner photography, high-impact visual, cinematic quality"
    else "Professional marketing visual"
  style ++ ", representing a professional event titled \"" ++ event_title ++ "\" for "
    ++ target_audience ++ ", theme inspired by: " ++ headline
    ++ ", high-quality professional photography, no text or words in the image, 16:9 aspect ratio, modern aesthetic, soft professional lighting, corporate color palette"

/-! ## ChunkStore client (`src/rag/retrieve.py`) -/

/-- Behaviour of one ChromaDB interaction, as observed by
`retrieve_chunks`: the call chain may raise (any exception inside the
`try` block), find an empty collection, or return rows of
(id, document, metadata source). -/
inductive IndexOutcome where
  | failure (msg : String)
  | emptyCollection
  | results (rows : List (String × String × Option String))

/-- The external similarity index as a function of (query, collection
name, top_k). -/
def ChunkStore := String → String → Nat → IndexOutcome

/-- `_get_fallback_chunks` from `src/rag/retrieve.py` lines 77–111, with
the hardcoded texts verbatim. -/
def _get_fallback_chunks (collection_name : String) : List SourceChunkR :=
  if collection_name = "brand_voice" then
    [ { id := "fallback_brand_1",
        text := "Our brand voice is confident yet approachable. We speak\n                directly to our audience as peers, not as authorities lecturing\n                from above. Use active voice, concrete examples, and avoid jargon\n                unless our audience uses it daily.",
        source := "fallback" },
      { id := "fallback_brand_2",
        text := "When writing calls-to-action, be specific about the benefit.\n                Don\x27t say \x27Learn more\x27 - say \x27See how teams cut review time by 50%\x27.\n                Every CTA should answer the reader\x27s question: \x27What\x27s in it for me?\x27",
        source := "fallback" } ]
  else if collection_name = "product_docs" then
    [ { id := "fallback_product_1",
        text := "Our platform helps teams collaborate more effectively.\n                Key features include real-time editing, version control, and\n                seamless integrations with existing workflows.",
        source := "fallback" } ]
  else []

/-- `retrieve_chunks` from `src/rag/retrieve.py` lines 22–74: any failure
of the index call and an empty collection both fall back to the fixed
chunk set; otherwise the rows are formatted with `source` defaulting to
"unknown".  The function always returns to its caller (the Python
`try`/`except` swallows every exception). -/
def retrieve_chunks (store : ChunkStore) (query : String) (collection_name : String)
    (top_k : Nat) : List SourceChunkR :=
  match store query collection_name top_k with
  | .failure _ => _get_fallback_chunks collection_name
  | .emptyCollection => _get_fallback_chunks collection_name
  | .results rows =>
    rows.map fun r => { id := r.1, text := r.2.1, source := r.2.2.getD "unknown" }

/-! ## Retriever stage (`src/nodes/retriever.py`) -/

/-- The chunk-context rendering `[{chunk['id']}]: {chunk['text']}` joined
by blank lines, shared by drafter, critic and verifier. -/
def chunkContext (chunks : List SourceChunkR) : String :=
  String.intercalate "\n\n" (chunks.map fun c => "[" ++ c.id ++ "]: " ++ c.text)

/-- `retrieve_node` from `src/nodes/retriever.py` lines 10–64.  `now` is
the `datetime.utcnow().isoformat()` oracle. -/
def retrieve_node (store : ChunkStore) (now : String) (s : PState) : PState :=
  let query_text :=
    "\n    Event: " ++ s.event_title ++
    "\n    Description: " ++ s.event_description ++
    "\n    Audience: " ++ s.target_audience ++
    "\n    Key Messages: " ++ String.intercalate ", " s.key_messages ++
    "\n    "
  let brand_chunks := retrieve_chunks store query_text "brand_voice" 5
  let product_chunks := retrieve_chunks store query_text "product_docs" 5
  let entry : AuditEntry :=
    { node := "retrieve", timestamp := now, action := "retrieved_chunks",
      details := [("brand_chunks_count", .n brand_chunks.length),
                  ("product_chunks_count", .n product_chunks.length),
                  ("query_preview", .s (strOf (query_text.data.take 200)))] }
  { s with brand_chunks, product_chunks, audit_log := s.audit_log ++ [entry] }

/-! ## Drafter stage (`src/nodes/drafter.py`) -/

/-- `draft_node` from `src/nodes/drafter.py` lines 13–93.  `complete` is
the completion-service oracle (prompt ↦ reply text); `now` the clock. -/
def draft_node (complete : String → String) (now : String) (s : PState) : PState :=
  let iteration := s.iteration + 1
  let brand_context := chunkContext s.brand_chunks
  let product_context := chunkContext s.product_chunks
  let feedback_text :=
    match s.critic_feedback with
    | some fb =>
      if iteration > 1 then
        "\nPrevious feedback to address:\n- Brand Voice Score: " ++
        toString fb.brand_voice_score ++ "/10\n- CTA Clarity Score: " ++
        toString fb.cta_clarity_score ++ "/10\n- Issues: " ++
        String.intercalate ", " fb.issues ++ "\n- Suggested Fixes: " ++
        String.intercalate ", " fb.fixes ++ "\n"
      else ""
    | none => ""
  let drafts := s.channels.foldl (fun acc channel =>
    let prompt := get_drafter_prompt channel s.event_title s.event_description
      s.event_date s.target_audience s.key_messages brand_context product_context
      feedback_text s.relevant_urls
    dictInsert channel (parse_draft_response channel (complete prompt)) acc)
    ([] : List (String × ChannelDraft))
  let entry : AuditEntry :=
    { node := "draft", timestamp := now, action := "generated_drafts",
      details := [("iteration", .n iteration),
                  ("channels", .list (drafts.map fun cd => .s cd.1)),
                  ("had_feedback", .b (feedback_text ≠ ""))] }
  { s with drafts, iteration, audit_log := s.audit_log ++ [entry] }

/-! ## Critic stage (`src/nodes/critic.py`) -/

/-- The draft compilation of `critic_node` lines 32–40. -/
def draftsText (drafts : List (String × ChannelDraft)) : String :=
  drafts.foldl (fun acc cd =>
    acc ++ "\n\n=== " ++ strOf (upperStr cd.1.data) ++ " ===\n"
      ++ (match cd.2.headline with | some h => "Headline: " ++ h ++ "\n" | none => "")
      ++ (match cd.2.subject_line with | some sj => "Subject: " ++ sj ++ "\n" | none => "")
      ++ "Body: " ++ cd.2.body ++ "\n"
      ++ "CTA: " ++ cd.2.cta ++ "\n") ""

/-- `critic_node` from `src/nodes/critic.py` lines 13–79. -/
def critic_node (complete : String → String) (now : String) (s : PState) : PState :=
  let prompt := get_critic_prompt (draftsText s.drafts) (chunkContext s.brand_chunks) s.channels
  let feedback := parse_critic_response (complete prompt)
  let entry : AuditEntry :=
    { node := "critic", timestamp := now, action := "evaluated_drafts",
      details := [("brand_voice_score", .n feedback.brand_voice_score),
                  ("cta_clarity_score", .n feedback.cta_clarity_score),
                  ("passed", .b feedback.passed),
                  ("issues_count", .n feedback.issues.length)] }
  { s with critic_feedback := some feedback, audit_log := s.audit_log ++ [entry] }

/-! ## Verifier stage (`src/nodes/verifier.py`) -/

/-- `_build_event_context` from `src/nodes/verifier.py` lines 79–99
(a key participates when its Python value is truthy). -/
def build_event_context (s : PState) : String :=
  let parts :=
    (if s.event_title ≠ "" then ["Event Title: " ++ s.event_title] else [])
    ++ (if s.event_description ≠ "" then ["Event Description: " ++ s.event_description] else [])
    ++ (match s.event_date with
        | some d => if d ≠ "" then ["Event Date: " ++ d] else []
        | none => [])
    ++ (if s.target_audience ≠ "" then ["Target Audience: " ++ s.target_audience] else [])
    ++ (if s.key_messages ≠ [] then
          ["Key Messages:\n" ++ String.intercalate "\n" (s.key_messages.map ("- " ++ ·))]
        else [])
  String.intercalate "\n\n" parts

/-- `_extract_claims` from `src/nodes/verifier.py` lines 102–160: one
completion call on the verification prompt, then the block parsing. -/
def _extract_claims (complete : String → String)
    (content chunks_text event_context : String) : List Claim :=
  extract_claims_text (complete (get_verifier_prompt content chunks_text event_context))

/-- `verify_node` from `src/nodes/verifier.py` lines 13–76. -/
def verify_node (complete : String → String) (now : String) (s : PState) : PState :=
  let chunks_text := chunkContext (s.brand_chunks ++ s.product_chunks)
  let event_context := build_event_context s
  let verified_drafts := s.drafts.map fun cd =>
    (cd.1, { cd.2 with claims := _extract_claims complete cd.2.body chunks_text event_context })
  let unsupported_claims := verified_drafts.flatMap fun cd =>
    (cd.2.claims.filter fun c => ¬ c.is_supported).map fun c => (cd.1, c.text)
  let entry : AuditEntry :=
    { node := "verify", timestamp := now, action := "verified_claims",
      details := [("total_claims", .n ((verified_drafts.map fun cd => cd.2.claims.length).sum)),
                  ("unsupported_claims", .n unsupported_claims.length),
                  ("unsupported_details",
                   .list (unsupported_claims.map fun pc =>
                     .obj [("channel", .s pc.1), ("claim", .s pc.2)]))] }
  { s with drafts := verified_drafts, audit_log := s.audit_log ++ [entry] }

/-! ## Image stage (`src/nodes/image_generator.py`) -/

/-- One Gemini image call as seen by the loop: either it raises, or it
returns a response whose parts each carry optional inline image data. -/
inductive ImageCallOutcome where
  | throws (err : String)
  | response (parts : List (Option (List Nat)))

/-- The `for part in response.parts` scan picking the first part whose
`inline_data` is not `None`. -/
def firstInline : List (Option (List Nat)) → Option (List Nat)
  | [] => none
  | some d :: _ => some d
  | none :: rest => firstInline rest

/-- `draft.headline or state.get("event_title", "")`: Python `or`
falls through on `None` and on the empty string. -/
def headline_or_title (d : ChannelDraft) (event_title : String) : String :=
  match d.headline with
  | some h => if h = "" then event_title else h
  | none => event_title

/-- The per-channel loop of `generate_images_node` lines 47–72: failures
are caught into the error list, successes store the first inline image,
a response with no image part stores nothing and records no error. -/
def imageLoop (svc : String → ImageCallOutcome) (event_title target_audience : String) :
    List (String × ChannelDraft) → List (String × List Nat) × Nat × List (String × String)
  | [] => ([], 0, [])
  | (ch, d) :: rest =>
    let prompt := get_image_prompt ch (headline_or_title d event_title) event_title target_audience
    match svc prompt with
    | .throws e =>
      let r := imageLoop svc event_title target_audience rest
      (r.1, r.2.1, (ch, e) :: r.2.2)
    | .response parts =>
      match firstInline parts with
      | some data =>
        let r := imageLoop svc event_title target_audience rest
        ((ch, data) :: r.1, r.2.1 + 1, r.2.2)
      | none => imageLoop svc event_title target_audience rest

/-- `generate_images_node` from `src/nodes/image_generator.py` lines
14–90.  `apiKey` is the resolved `GEMINI_API_KEY`/`GOOGLE_API_KEY` value
(`none` = unset; Python also treats the empty string as absent). -/
def generate_images_node (apiKey : Option String) (svc : String → ImageCallOutcome)
    (now : String) (s : PState) : PState :=
  if apiKey.getD "" = "" then
    { s with images := [],
             audit_log := s.audit_log ++
               [{ node := "generate_images", timestamp := now, action := "skipped",
                  details := [("reason", .s "No GEMINI_API_KEY found in environment")] }] }
  else
    let r := imageLoop svc s.event_title s.target_audience s.drafts
    { s with images := r.1,
             audit_log := s.audit_log ++
               [{ node := "generate_images", timestamp := now, action := "generated_images",
                  details := [("channels_requested", .list (s.drafts.map fun cd => .s cd.1)),
                              ("images_generated", .n r.2.1),
                              ("errors", .list (r.2.2.map fun pe =>
                                .obj [("channel", .s pe.1), ("error", .s pe.2)]))] }] }

/-! ## Exporter stage (`src/nodes/exporter.py`)

`_generate_run_id` draws from `uuid.uuid4()` and the two
`datetime.utcnow()` calls read the clock; all three are oracles passed
as arguments (`run_id`, `nowOutput` for the final-output timestamp,
`nowEntry` for the audit-entry timestamp). -/

/-- The `final_output` dict assembled by `export_node` lines 25–85. -/
def build_final_output (run_id nowOutput : String) (s : PState) : FinalOutput :=
  { content := s.drafts.map fun cd =>
      (cd.1, { headline := cd.2.headline, body := cd.2.body, cta := cd.2.cta,
               subject_line := cd.2.subject_line }),
    images := s.images,
    relevant_urls := s.relevant_urls,
    scorecard :=
      { brand_voice_score := s.critic_feedback.map (·.brand_voice_score),
        cta_clarity_score := s.critic_feedback.map (·.cta_clarity_score),
        iterations := s.iteration,
        passed := match s.critic_feedback with | some fb => fb.passed | none => false },
    claims_table := s.drafts.flatMap fun cd =>
      cd.2.claims.map fun c =>
        { claim := c.text, source := c.source_chunk_id,
          is_supported := c.is_supported, channel := cd.1 },
    audit_log :=
      { run_id, timestamp := nowOutput,
        input := { event_title := s.event_title, event_description := s.event_description,
                   event_date := s.event_date, target_audience := s.target_audience,
                   key_messages := s.key_messages, channels := s.channels },
        brand_chunks_retrieved := s.brand_chunks.length,
        product_chunks_retrieved := s.product_chunks.length,
        iterations := s.audit_log } }

/-- `export_node` from `src/nodes/exporter.py` lines 10–102. -/
def export_node (run_id nowOutput nowEntry : String) (s : PState) : PState :=
  let fo := build_final_output run_id nowOutput s
  { s with final_output := some fo,
           audit_log := s.audit_log ++
             [{ node := "export", timestamp := nowEntry, action := "exported_final_output",
                details := [("channels_exported", .list (s.drafts.map fun cd => .s cd.1)),
                            ("total_claims", .n fo.claims_table.length)] }] }

/-! ## The Draft→Critic→Verify cycle (`src/graph.py`)

The compiled graph (and the step-by-step driver
`_run_pipeline_with_callbacks`) runs Draft, Critic, Verify in sequence
and then consults `should_continue`; the external calls of cycle `n` are
collected in one oracle bundle. -/

structure CycleOracles where
  draftComplete : String → String
  criticComplete : String → String
  verifyComplete : String → String
  tDraft : String
  tCritic : String
  tVerify : String

/-- One Draft→Critic→Verify pass. -/
def pipelineCycle (o : CycleOracles) (s : PState) : PState :=
  verify_node o.verifyComplete o.tVerify
    (critic_node o.criticComplete o.tCritic
      (draft_node o.draftComplete o.tDraft s))

/-- The state after `n` completed cycles. -/
def runCycles (o : Nat → CycleOracles) (s : PState) : Nat → PState
  | 0 => s
  | n + 1 => pipelineCycle (o n) (runCycles o s n)

/-! ## Theorems -/

/-- `should_continue` as one decision chain over the two spec-side
predicates. -/
theorem should_continue_eq (s : PState) :
    should_continue s =
      if 3 ≤ s.iteration then "export"
      else if feedbackFailed s then "draft"
      else if hasUnsupportedClaim s then "draft"
      else "export" := by
  unfold should_continue feedbackFailed hasUnsupportedClaim
  cases s.critic_feedback with
  | none => simp
  | some fb => by_cases hp : fb.passed <;> simp [hp]

/-- C1: the loop controller decides by a fixed order where the first
matching rule wins: `iteration ≥ 3` forces finalize/export even when the
critic failed or unsupported claims exist; below the cap, a failing
critic verdict forces retry/draft; otherwise any unsupported claim
forces retry/draft; otherwise it exports. -/
theorem loop_controller_decision_order (s : PState) :
    (3 ≤ s.iteration → should_continue s = "export")
  ∧ (s.iteration < 3 → feedbackFailed s = true → should_continue s = "draft")
  ∧ (s.iteration < 3 → feedbackFailed s = false → hasUnsupportedClaim s = true →
      should_continue s = "draft")
  ∧ (s.iteration < 3 → feedbackFailed s = false → hasUnsupportedClaim s = false →
      should_continue s = "export") := by
  refine ⟨?_, ?_, ?_, ?_⟩
  · intro h
    rw [should_continue_eq, if_pos h]
  · intro h hf
    rw [should_continue_eq, if_neg (by omega), hf]
    simp
  · intro h hf hu
    rw [should_continue_eq, if_neg (by omega), hf, hu]
    simp
  · intro h hf hu
    rw [should_continue_eq, if_neg (by omega), hf, hu]
    simp

/-- A state at the iteration cap with a failing critic verdict and an
unsupported claim: the cap wins. -/
def c1State : PState :=
  { iteration := 3,
    critic_feedback := some
      { brand_voice_score := 2, cta_clarity_score := 2, length_ok := false, passed := false },
    drafts := [("web",
      { channel := "web", body := "b", cta := "c",
        claims := [{ text := "unsupported claim", is_supported := false }] })] }

/-- Witness for C1 at a concrete state where all three retry conditions
compete: the iteration cap overrides the failing critic verdict and the
unsupported claim. -/
theorem loop_controller_decision_order_witness :
    should_continue c1State = "export"
  ∧ feedbackFailed c1State = true
  ∧ hasUnsupportedClaim c1State = true :=
  ⟨(loop_controller_decision_order c1State).1 (by decide), by decide, by decide⟩

/-- Critic and verifier leave the iteration counter unchanged and the
drafter increments it by exactly one, so one cycle adds one. -/
theorem pipelineCycle_iteration (o : CycleOracles) (s : PState) :
    (pipelineCycle o s).iteration = s.iteration + 1 := rfl

/-- C2: the drafter increments `iteration` by exactly 1; starting from
iteration 0, after `n` Draft→Critic→Verify cycles the counter is `n`;
after 3 cycles the loop controller necessarily answers "export"; hence no
run of the loop can execute a 4th draft cycle (a cycle runs only when
every earlier decision was "draft"), and the counter never exceeds 3. -/
theorem iteration_cap_terminates (o : Nat → CycleOracles) (s0 : PState)
    (h0 : s0.iteration = 0) :
    (∀ complete now s, (draft_node complete now s).iteration = s.iteration + 1)
  ∧ (∀ n, (runCycles o s0 n).iteration = n)
  ∧ should_continue (runCycles o s0 3) = "export"
  ∧ (∀ n, 4 ≤ n → ¬ (∀ m, 1 ≤ m → m < n → should_continue (runCycles o s0 m) = "draft"))
  ∧ (∀ n, n ≤ 3 → (runCycles o s0 n).iteration ≤ 3) := by
  have hiter : ∀ n, (runCycles o s0 n).iteration = n := by
    intro n
    induction n with
    | zero => simpa [runCycles] using h0
    | succ k ih => rw [runCycles, pipelineCycle_iteration, ih]
  have hexp : should_continue (runCycles o s0 3) = "export" := by
    rw [should_continue_eq, if_pos (by rw [hiter])]
  refine ⟨fun complete now s => rfl, hiter, hexp, ?_, ?_⟩
  · intro n h4 hall
    have h3 := hall 3 (by omega) (by omega)
    rw [hexp] at h3
    simp at h3
  · intro n hn
    rw [hiter]
    exact hn

def trivialCycleOracles : CycleOracles :=
  { draftComplete := fun _ => "", criticComplete := fun _ => "",
    verifyComplete := fun _ => "", tDraft := "", tCritic := "", tVerify := "" }

/-- Witness for C2: from the all-defaults initial state (iteration 0),
after 3 cycles the controller answers "export". -/
theorem iteration_cap_terminates_witness :
    should_continue (runCycles (fun _ => trivialCycleOracles) {} 3) = "export" :=
  (iteration_cap_terminates (fun _ => trivialCycleOracles) {} rfl).2.2.1

/-- C4 (evidence for the code bug): `_parse_critic_response` ignores the
critic's reply entirely and returns one fixed passing feedback — scores
8/8, `length_ok = true`, `passed = true` — for every response text,
instead of deriving `passed` from parsed scores as the spec's threshold
contract requires.  In particular a reply reporting failing scores and
`PASSED: false` still yields a passing CriticFeedback. -/
theorem critic_parse_constant_feedback (response_text : String) :
    parse_critic_response response_text =
      { brand_voice_score := 8, cta_clarity_score := 8, length_ok := true,
        issues := [], fixes := [], passed := true } := rfl

/-- C6: the chunk-retrieval function fails open.  For every query,
collection and `top_k`: a failing index call and an empty index both
yield the fixed fallback set of that collection; the fallback set has
exactly two chunks for "brand_voice", one for "product_docs", and is
empty for any other collection.  (The embedding is a total function: the
Python `try`/`except` returns in every case, never raising to the
caller.) -/
theorem retrieve_chunks_fails_open (store : ChunkStore)
    (query collection_name : String) (top_k : Nat) :
    (∀ msg, store query collection_name top_k = .failure msg →
      retrieve_chunks store query collection_name top_k = _get_fallback_chunks collection_name)
  ∧ (store query collection_name top_k = .emptyCollection →
      retrieve_chunks store query collection_name top_k = _get_fallback_chunks collection_name)
  ∧ (_get_fallback_chunks "brand_voice").length = 2
  ∧ (_get_fallback_chunks "product_docs").length = 1
  ∧ (collection_name ≠ "brand_voice" → collection_name ≠ "product_docs" →
      _get_fallback_chunks collection_name = []) := by
  refine ⟨?_, ?_, rfl, rfl, ?_⟩
  · intro msg h
    unfold retrieve_chunks
    rw [h]
  · intro h
    unfold retrieve_chunks
    rw [h]
  · intro h1 h2
    simp [_get_fallback_chunks, h1, h2]

/-- Witness for C6: a store whose calls always fail gives the documented
two-chunk brand-voice fallback. -/
theorem retrieve_chunks_fails_open_witness :
    retrieve_chunks (fun _ _ _ => .failure "index down") "q" "brand_voice" 5
      = _get_fallback_chunks "brand_voice"
  ∧ (retrieve_chunks (fun _ _ _ => .failure "index down") "q" "brand_voice" 5).length = 2 := by
  have h := (retrieve_chunks_fails_open (fun _ _ _ => .failure "index down")
    "q" "brand_voice" 5).1 "index down" rfl
  exact ⟨h, by rw [h]; rfl⟩

/-- C8: the Exporter is idempotent modulo fresh identifiers.  Two runs
of `export_node` on the same state produce `FinalOutput` records that
agree on content, images, relevant urls, scorecard, claims table, input
snapshot, retrieval counts and the accumulated iteration log; only the
run id and the top-level timestamp (the two oracle inputs) can differ. -/
theorem exporter_idempotent_mod_run_id (s : PState) (r1 t1 e1 r2 t2 e2 : String) :
    (export_node r1 t1 e1 s).final_output = some (build_final_output r1 t1 s)
  ∧ (export_node r2 t2 e2 s).final_output = some (build_final_output r2 t2 s)
  ∧ (build_final_output r1 t1 s).content = (build_final_output r2 t2 s).content
  ∧ (build_final_output r1 t1 s).images = (build_final_output r2 t2 s).images
  ∧ (build_final_output r1 t1 s).relevant_urls = (build_final_output r2 t2 s).relevant_urls
  ∧ (build_final_output r1 t1 s).scorecard = (build_final_output r2 t2 s).scorecard
  ∧ (build_final_output r1 t1 s).claims_table = (build_final_output r2 t2 s).claims_table
  ∧ (build_final_output r1 t1 s).audit_log.input = (build_final_output r2 t2 s).audit_log.input
  ∧ (build_final_output r1 t1 s).audit_log.brand_chunks_retrieved
      = (build_final_output r2 t2 s).audit_log.brand_chunks_retrieved
  ∧ (build_final_output r1 t1 s).audit_log.product_chunks_retrieved
      = (build_final_output r2 t2 s).audit_log.product_chunks_retrieved
  ∧ (build_final_output r1 t1 s).audit_log.iterations
      = (build_final_output r2 t2 s).audit_log.iterations :=
  ⟨rfl, rfl, rfl, rfl, rfl, rfl, rfl, rfl, rfl, rfl, rfl⟩

/-- C9: every stage invocation — Retriever, Drafter, Critic, Verifier,
Image stage (whether it skips, degrades or succeeds) and Exporter —
returns an audit log equal to the incoming one with exactly one entry
appended, so existing entries are never removed, reordered or rewritten
and the length grows by exactly one per stage run. -/
theorem stages_append_one_audit_entry :
    (∀ store now s, ∃ e, (retrieve_node store now s).audit_log = s.audit_log ++ [e])
  ∧ (∀ complete now s, ∃ e, (draft_node complete now s).audit_log = s.audit_log ++ [e])
  ∧ (∀ complete now s, ∃ e, (critic_node complete now s).audit_log = s.audit_log ++ [e])
  ∧ (∀ complete now s, ∃ e, (verify_node complete now s).audit_log = s.audit_log ++ [e])
  ∧ (∀ apiKey svc now s, ∃ e, (generate_images_node apiKey svc now s).audit_log
      = s.audit_log ++ [e])
  ∧ (∀ run_id t1 t2 s, ∃ e, (export_node run_id t1 t2 s).audit_log = s.audit_log ++ [e]) := by
  refine ⟨fun store now s => ⟨_, rfl⟩, fun c now s => ⟨_, rfl⟩, fun c now s => ⟨_, rfl⟩,
    fun c now s => ⟨_, rfl⟩, ?_, fun r t1 t2 s => ⟨_, rfl⟩⟩
  intro apiKey svc now s
  by_cases h : apiKey.getD "" = ""
  · exact ⟨_, by rw [generate_images_node, if_pos h]⟩
  · exact ⟨_, by rw [generate_images_node, if_neg h]⟩

/-- Every map entry produced by the image loop comes from a channel
whose Gemini call returned a response with an inline-data part. -/
theorem imageLoop_complete (svc : String → ImageCallOutcome) (title aud : String) :
    ∀ (drafts : List (String × ChannelDraft)) (ch : String) (data : List Nat),
      (ch, data) ∈ (imageLoop svc title aud drafts).1 →
      ∃ d parts, (ch, d) ∈ drafts
        ∧ svc (get_image_prompt ch (headline_or_title d title) title aud) = .response parts
        ∧ firstInline parts = some data := by
  intro drafts
  induction drafts with
  | nil => intro ch data h; simp [imageLoop] at h
  | cons hd rest ih =>
    intro ch data h
    obtain ⟨ch0, d0⟩ := hd
    rw [imageLoop] at h
    cases hsvc : svc (get_image_prompt ch0 (headline_or_title d0 title) title aud) with
    | throws e0 =>
      rw [hsvc] at h
      dsimp only at h
      obtain ⟨d, parts, hmem, hs, hf⟩ := ih ch data h
      exact ⟨d, parts, List.mem_cons_of_mem _ hmem, hs, hf⟩
    | response parts0 =>
      rw [hsvc] at h
      dsimp only at h
      cases hfi : firstInline parts0 with
      | some data0 =>
        rw [hfi] at h
        simp only at h
        rcases List.mem_cons.mp h with heq | hrest
        · injection heq with h1 h2
          subst h1; subst h2
          exact ⟨d0, parts0, List.mem_cons_self _ _, hsvc, hfi⟩
        · obtain ⟨d, parts, hmem, hs, hf⟩ := ih ch data hrest
          exact ⟨d, parts, List.mem_cons_of_mem _ hmem, hs, hf⟩
      | none =>
        rw [hfi] at h
        dsimp only at h
        obtain ⟨d, parts, hmem, hs, hf⟩ := ih ch data h
        exact ⟨d, parts, List.mem_cons_of_mem _ hmem, hs, hf⟩

theorem imageLoop_images_keys {svc : String → ImageCallOutcome} {title aud : String}
    {drafts : List (String × ChannelDraft)} {ch : String} {data : List Nat}
    (h : (ch, data) ∈ (imageLoop svc title aud drafts).1) : ch ∈ drafts.map Prod.fst := by
  obtain ⟨d, parts, hmem, -, -⟩ := imageLoop_complete svc title aud drafts ch data h
  exact List.mem_map.mpr ⟨(ch, d), hmem, rfl⟩

/-- A channel whose Gemini call raises is recorded in the error list and
is absent from the image map. -/
theorem imageLoop_throws (svc : String → ImageCallOutcome) (title aud : String) :
    ∀ (drafts : List (String × ChannelDraft)) (ch : String) (d : ChannelDraft) (e : String),
      (drafts.map Prod.fst).Nodup → (ch, d) ∈ drafts →
      svc (get_image_prompt ch (headline_or_title d title) title aud) = .throws e →
      (ch, e) ∈ (imageLoop svc title aud drafts).2.2
      ∧ ch ∉ (imageLoop svc title aud drafts).1.map Prod.fst := by
  intro drafts
  induction drafts with
  | nil => intro ch d e _ hmem; simp at hmem
  | cons hd rest ih =>
    intro ch d e hnd hmem hsvc
    obtain ⟨ch0, d0⟩ := hd
    rw [List.map_cons, List.nodup_cons] at hnd
    obtain ⟨hch0, hndrest⟩ := hnd
    rcases List.mem_cons.mp hmem with heq | hmemrest
    · injection heq with h1 h2
      subst h1; subst h2
      rw [imageLoop, hsvc]
      constructor
      · exact List.mem_cons_self _ _
      · intro habs
        obtain ⟨⟨ch2, data2⟩, hmem2, hfst⟩ := List.mem_map.mp habs
        cases hfst
        exact hch0 (imageLoop_images_keys hmem2)
    · have hih := ih ch d e hndrest hmemrest hsvc
      have hchne : ch ≠ ch0 := by
        intro hcontra
        subst hcontra
        exact hch0 (List.mem_map.mpr ⟨(ch, d), hmemrest, rfl⟩)
      rw [imageLoop]
      cases hsvc0 : svc (get_image_prompt ch0 (headline_or_title d0 title) title aud) with
      | throws e0 =>
        dsimp only
        exact ⟨List.mem_cons_of_mem _ hih.1, hih.2⟩
      | response parts0 =>
        dsimp only
        cases hfi : firstInline parts0 with
        | some data0 =>
          dsimp only
          refine ⟨hih.1, ?_⟩
          rw [List.map_cons]
          intro habs
          rcases List.mem_cons.mp habs with heq2 | hrest2
          · exact hchne heq2
          · exact hih.2 hrest2
        | none =>
          dsimp only
          exact hih

/-- C10: with no image-service credential the stage is soft-disabled
(empty image map, one "skipped" audit entry); with a credential, the
image map is exactly the per-channel loop's map, every channel whose
call raises is recorded in the error list without aborting the stage and
has no image entry, and every image entry comes from a channel whose
call returned image data. -/
theorem image_stage_soft_disabled_isolated :
    (∀ svc now s, (generate_images_node none svc now s).images = []
      ∧ (generate_images_node none svc now s).audit_log = s.audit_log ++
          [{ node := "generate_images", timestamp := now, action := "skipped",
             details := [("reason", JVal.s "No GEMINI_API_KEY found in environment")] }])
  ∧ (∀ k svc now s, k ≠ "" → (generate_images_node (some k) svc now s).images
      = (imageLoop svc s.event_title s.target_audience s.drafts).1)
  ∧ (∀ svc title aud (drafts : List (String × ChannelDraft)) ch d e,
      (drafts.map Prod.fst).Nodup → (ch, d) ∈ drafts →
      svc (get_image_prompt ch (headline_or_title d title) title aud) = .throws e →
      (ch, e) ∈ (imageLoop svc title aud drafts).2.2
      ∧ ch ∉ (imageLoop svc title aud drafts).1.map Prod.fst)
  ∧ (∀ svc title aud (drafts : List (String × ChannelDraft)) ch data,
      (ch, data) ∈ (imageLoop svc title aud drafts).1 →
      ∃ d parts, (ch, d) ∈ drafts
        ∧ svc (get_image_prompt ch (headline_or_title d title) title aud) = .response parts
        ∧ firstInline parts = some data) := by
  refine ⟨fun svc now s => ⟨rfl, rfl⟩, ?_, ?_, ?_⟩
  · intro k svc now s hk
    rw [generate_images_node, if_neg (by simpa using hk)]
  · intro svc title aud drafts ch d e hnd hmem hsvc
    exact imageLoop_throws svc title aud drafts ch d e hnd hmem hsvc
  · intro svc title aud drafts ch data h
    exact imageLoop_complete svc title aud drafts ch data h

/-- A marker search fails on any text that nowhere contains the marker
(case-insensitively). -/
theorem searchMarkerCI_eq_none {pat : List Char} (look : List Char → Bool) :
    ∀ {cs : List Char}, containsCI pat cs = false → searchMarkerCI pat look cs = none := by
  intro cs
  induction cs with
  | nil => intro h; rfl
  | cons c rest ih =>
    intro h
    rw [containsCI, Bool.or_eq_false_iff] at h
    rw [searchMarkerCI, if_neg (by rw [h.1]; exact Bool.false_ne_true)]
    exact ih h.2

/-- C5: the Drafter's response parser is total and degrading.  For every
response text: when the text contains no `BODY:` marker the whole text
becomes the draft body; when it contains no `HEADLINE:` marker the
headline is absent; when it contains no `CTA:` marker the CTA defaults
to "Learn more"; and a `ChannelDraft` for the requested channel is
always returned (the parsing functions are total — no code path
raises). -/
theorem drafter_parse_degrades_gracefully (channel response_text : String) :
    (containsCI "BODY:".data response_text.data = false →
      (parse_draft_response channel response_text).body = response_text)
  ∧ (containsCI "HEADLINE:".data response_text.data = false →
      (parse_draft_response channel response_text).headline = none)
  ∧ (containsCI "CTA:".data response_text.data = false →
      (parse_draft_response channel response_text).cta = "Learn more")
  ∧ (parse_draft_response channel response_text).channel = channel := by
  refine ⟨?_, ?_, ?_, rfl⟩
  · intro h
    show (match searchMarkerCI "BODY:".data lookBody response_text.data with
          | some cap => strOf (pyStrip cap)
          | none => response_text) = response_text
    rw [searchMarkerCI_eq_none lookBody h]
  · intro h
    show ((searchMarkerCI "HEADLINE:".data lookHeadline response_text.data).map
            firstLineStrip) = none
    rw [searchMarkerCI_eq_none lookHeadline h]
    rfl
  · intro h
    show (match searchMarkerCI "CTA:".data lookCta response_text.data with
          | some cap => firstLineStrip cap
          | none => "Learn more") = "Learn more"
    rw [searchMarkerCI_eq_none lookCta h]

/-- Witness for C5: a response with no section markers at all parses to
a draft whose body is the whole response, with no headline and the
default CTA. -/
theorem drafter_parse_degrades_gracefully_witness :
    (parse_draft_response "web" "hello world").body = "hello world"
  ∧ (parse_draft_response "web" "hello world").headline = none
  ∧ (parse_draft_response "web" "hello world").cta = "Learn more" :=
  ⟨(drafter_parse_degrades_gracefully "web" "hello world").1 (by decide),
   (drafter_parse_degrades_gracefully "web" "hello world").2.1 (by decide),
   (drafter_parse_degrades_gracefully "web" "hello world").2.2.1 (by decide)⟩

/-- Every claim built from a `CLAIMS:` section line is marked supported
exactly when a `[source: ...]` marker was found on its line. -/
theorem parseClaimLines_support (ct : List Char) :
    ∀ c ∈ parseClaimLines ct, c.is_supported = c.source_chunk_id.isSome := by
  intro c hc
  unfold parseClaimLines at hc
  obtain ⟨line, hline, hf⟩ := List.mem_filterMap.mp hc
  by_cases h1 : pyStrip line = []
  · rw [if_pos h1] at hf
    simp at hf
  · rw [if_neg h1] at hf
    dsimp only at hf
    split at hf
    · simp at hf
    · injection hf with hf2
      subst hf2
      cases searchSrcMarker (pyLStripSet ['-', ' '] (pyStrip line)) <;> rfl

/-- Every claim appended by the inline-citation loop is marked supported
and carries a source, so the loop preserves the invariant
`is_supported = source_chunk_id.isSome`. -/
theorem inlineFold_support : ∀ (items : List (List Char × List Char)) (acc : List Claim),
    (∀ c ∈ acc, c.is_supported = c.source_chunk_id.isSome) →
    ∀ c ∈ inlineFold acc items, c.is_supported = c.source_chunk_id.isSome := by
  intro items
  induction items with
  | nil =>
    intro acc hacc c hc
    rw [inlineFold] at hc
    exact hacc c hc
  | cons p rest ih =>
    intro acc hacc c hc
    obtain ⟨full, tok⟩ := p
    rw [inlineFold] at hc
    split at hc
    · refine ih _ ?_ c hc
      intro c2 hc2
      rcases List.mem_append.mp hc2 with hl | hr
      · exact hacc c2 hl
      · rw [List.mem_singleton] at hr
        subst hr
        rfl
    · exact ih acc hacc c hc

/-- C3 (amended): the support flags the parsers actually compute.
In the Verifier's extraction a parsed `SOURCE` of `NONE` (any case) is
normalized to no source and unsupported, a parsed `SOURCE` of
`user_input` (any case) is always supported, and any other parsed source
— whether or not it is a retrieved chunk id — and an absent source take
`is_supported` directly from the parsed `SUPPORTED:` line (false when
that line is absent); every extracted claim comes from one parsed block.
In the Drafter's parsing a claim is marked supported exactly when a
`[source: ...]` marker is present, regardless of the id named. -/
theorem verifier_drafter_support_flags :
    (∀ (b : List Char) (c : Claim), processBlock b = some c →
      (match (searchSourceTok b).map pyStrip with
       | some s =>
         if strOf (upperStr s) = "NONE" then
           c.source_chunk_id = none ∧ c.is_supported = false
         else if strOf (lowerStr s) = "user_input" then
           c.source_chunk_id = some (strOf s) ∧ c.is_supported = true
         else
           c.source_chunk_id = some (strOf s)
             ∧ c.is_supported = (searchSupportedTok b).getD false
       | none => c.source_chunk_id = none ∧ c.is_supported = (searchSupportedTok b).getD false))
  ∧ (∀ (response : String) (c : Claim), c ∈ extract_claims_text response →
      ∃ b ∈ splitBlocks response.data, processBlock b = some c)
  ∧ (∀ (channel response : String), ∀ c ∈ (parse_draft_response channel response).claims,
      c.is_supported = c.source_chunk_id.isSome) := by
  refine ⟨?_, ?_, ?_⟩
  · intro b c h
    unfold processBlock at h
    cases hcm : searchMarkerCI "CLAIM:".data lookClaim b with
    | none => rw [hcm] at h; simp at h
    | some cap =>
      rw [hcm] at h
      dsimp only at h
      split at h
      case isFalse => simp at h
      case isTrue hcond =>
        injection h with h2
        subst h2
        cases hs : searchSourceTok b with
        | none =>
          simp only [hs, Option.map_none']
          refine ⟨by trivial, ?_⟩
          cases h3 : searchSupportedTok b <;> simp [h3]
        | some s0 =>
          simp only [hs, Option.map_some']
          by_cases hnone : strOf (upperStr (pyStrip s0)) = "NONE"
          · simp [hnone]
          · by_cases huser : strOf (lowerStr (pyStrip s0)) = "user_input"
            · simp [hnone, huser]
            · cases h3 : searchSupportedTok b <;> simp [hnone, huser, h3]
  · intro response c hc
    unfold extract_claims_text at hc
    obtain ⟨b, hb, hpb⟩ := List.mem_filterMap.mp hc
    exact ⟨b, hb, hpb⟩
  · intro channel response c hc
    have hc2 : c ∈ inlineFold
        (match searchMarkerCI "CLAIMS:".data (fun _ => false) response.data with
         | some cap => parseClaimLines (pyStrip cap)
         | none => [])
        (inlineFindAll (match searchMarkerCI "BODY:".data lookBody response.data with
          | some cap => strOf (pyStrip cap)
          | none => response).data) := hc
    refine inlineFold_support _ _ ?_ c hc2
    intro c2 hc2m
    cases hsm : searchMarkerCI "CLAIMS:".data (fun _ => false) response.data with
    | none =>
      rw [hsm] at hc2m
      simp at hc2m
    | some cap =>
      rw [hsm] at hc2m
      exact parseClaimLines_support _ c2 hc2m

/-- C3 counterexample: on the concrete verifier reply
`"CLAIM: Over 500 attendees expected\nSUPPORTED: true"` the extraction
produces a claim with no `source_chunk_id` at all whose `is_supported`
is nonetheless `true` (the parsed `SUPPORTED:` line is trusted when no
source was named), refuting "is_supported == true iff source_chunk_id is
a known chunk id or user_input" and "a claim whose parsed source is
absent always ends unsupported". -/
theorem claim_support_iff_known_source_refuted :
    ¬ (∀ c ∈ extract_claims_text "CLAIM: Over 500 attendees expected\nSUPPORTED: true",
        c.is_supported = true ↔
          (match c.source_chunk_id with
           | some s => s ∈ ([] : List String) ∨ s = "user_input"
           | none => False)) := by
  intro h
  have hm : ({ text := "Over 500 attendees expected", source_chunk_id := none,
               is_supported := true } : Claim)
      ∈ extract_claims_text "CLAIM: Over 500 attendees expected\nSUPPORTED: true" := by
    decide
  have h2 := (h _ hm).mp rfl
  exact h2

/-- Witness for C3 (amended), drafter part: on a concrete response the
claim parsed from the `CLAIMS:` section is supported and its flag equals
the presence of its source marker. -/
theorem verifier_drafter_support_flags_witness :
    ({ text := "Fact", source_chunk_id := some "chunk_a", is_supported := true } : Claim).is_supported
      = ({ text := "Fact", source_chunk_id := some "chunk_a",
           is_supported := true } : Claim).source_chunk_id.isSome :=
  verifier_drafter_support_flags.2.2 "web" "CLAIMS:\n- Fact [source: chunk_a]"
    { text := "Fact", source_chunk_id := some "chunk_a", is_supported := true } (by decide)

theorem collapseSpaces_head (l : List Char) : (collapseSpaces l).head? = l.head? := by
  induction l with
  | nil => rfl
  | cons c1 tail ih =>
    cases tail with
    | nil => rfl
    | cons c2 rest =>
      rw [collapseSpaces]
      by_cases h : c1 = ' ' && c2 = ' '
      · rw [if_pos h, ih]
        simp only [Bool.and_eq_true, decide_eq_true_eq] at h
        rw [h.1, h.2]
        rfl
      · rw [if_neg h]
        rfl

theorem hasDoubleSpace_cons_false (c : Char) (l : List Char)
    (hc : l.head? = some ' ' → c ≠ ' ') (hl : hasDoubleSpace l = false) :
    hasDoubleSpace (c :: l) = false := by
  cases l with
  | nil => rfl
  | cons d ds =>
    rw [hasDoubleSpace, Bool.or_eq_false_iff]
    refine ⟨?_, hl⟩
    by_cases hd : d = ' '
    · have := hc (by rw [hd]; rfl)
      simp [this]
    · simp [hd]

/-- The space-collapsing pass leaves no two consecutive spaces. -/
theorem collapseSpaces_noDouble (l : List Char) :
    hasDoubleSpace (collapseSpaces l) = false := by
  induction l with
  | nil => rfl
  | cons c1 tail ih =>
    cases tail with
    | nil => rfl
    | cons c2 rest =>
      rw [collapseSpaces]
      by_cases h : c1 = ' ' && c2 = ' '
      · rw [if_pos h]
        exact ih
      · rw [if_neg h]
        refine hasDoubleSpace_cons_false c1 _ ?_ ih
        intro hhead hc1
        rw [collapseSpaces_head] at hhead
        have hc2 : c2 = ' ' := by
          injection hhead
        exact h (by rw [hc1, hc2]; rfl)

theorem hasDoubleSpace_of_cons {c : Char} {l : List Char}
    (h : hasDoubleSpace (c :: l) = false) : hasDoubleSpace l = false := by
  cases l with
  | nil => rfl
  | cons d ds =>
    rw [hasDoubleSpace, Bool.or_eq_false_iff] at h
    exact h.2

theorem hasDoubleSpace_append_left (l1 l2 : List Char)
    (h : hasDoubleSpace (l1 ++ l2) = false) : hasDoubleSpace l1 = false := by
  induction l1 with
  | nil => rfl
  | cons c tail ih =>
    cases tail with
    | nil => rfl
    | cons d ds =>
      rw [List.cons_append, List.cons_append, hasDoubleSpace, Bool.or_eq_false_iff] at h
      rw [hasDoubleSpace, Bool.or_eq_false_iff]
      exact ⟨h.1, ih h.2⟩

theorem hasDoubleSpace_append_right (l1 l2 : List Char)
    (h : hasDoubleSpace (l1 ++ l2) = false) : hasDoubleSpace l2 = false := by
  induction l1 with
  | nil => simpa using h
  | cons c tail ih =>
    exact ih (hasDoubleSpace_of_cons h)

/-- Both trimming steps of `str.strip` preserve the absence of double
spaces (the stripped text is a suffix of a prefix of the input). -/
theorem pyStrip_noDouble (l : List Char) (h : hasDoubleSpace l = false) :
    hasDoubleSpace (pyStrip l) = false := by
  unfold pyStrip
  have hA : hasDoubleSpace (l.dropWhile isPySpace) = false := by
    refine hasDoubleSpace_append_right (l.takeWhile isPySpace) _ ?_
    rw [List.takeWhile_append_dropWhile]
    exact h
  set A := l.dropWhile isPySpace with hAdef
  have hsplit : A = (A.reverse.dropWhile isPySpace).reverse
      ++ (A.reverse.takeWhile isPySpace).reverse := by
    conv_lhs => rw [← List.reverse_reverse A,
      ← List.takeWhile_append_dropWhile isPySpace A.reverse]
    rw [List.reverse_append]
  exact hasDoubleSpace_append_left _ _ (by rw [← hsplit]; exact hA)

theorem headNotWs_dropWhile (l : List Char) :
    headNotWs (l.dropWhile isPySpace) = true := by
  induction l with
  | nil => rfl
  | cons c rest ih =>
    rw [List.dropWhile]
    by_cases h : isPySpace c
    · rw [h]
      exact ih
    · rw [Bool.not_eq_true] at h
      rw [h]
      simp [headNotWs, h]

theorem headNotWs_prefix (l1 l2 : List Char) (h : headNotWs (l1 ++ l2) = true) :
    headNotWs l1 = true := by
  cases l1 with
  | nil => rfl
  | cons c rest => simpa [headNotWs] using h

/-- The stripped text starts with a non-whitespace character (or is
empty). -/
theorem pyStrip_headNotWs (l : List Char) : headNotWs (pyStrip l) = true := by
  unfold pyStrip
  set A := l.dropWhile isPySpace with hAdef
  have hA : headNotWs A = true := headNotWs_dropWhile l
  have hsplit : A = (A.reverse.dropWhile isPySpace).reverse
      ++ (A.reverse.takeWhile isPySpace).reverse := by
    conv_lhs => rw [← List.reverse_reverse A,
      ← List.takeWhile_append_dropWhile isPySpace A.reverse]
    rw [List.reverse_append]
  refine headNotWs_prefix _ ((A.reverse.takeWhile isPySpace).reverse) ?_
  rw [← hsplit]
  exact hA

/-- The stripped text ends with a non-whitespace character (or is
empty): its reversal starts with one. -/
theorem pyStrip_rev_headNotWs (l : List Char) :
    headNotWs (pyStrip l).reverse = true := by
  unfold pyStrip
  rw [List.reverse_reverse]
  exact headNotWs_dropWhile _

/-- C7 (amended): the clean-copy transform removes citation markers in a
single left-to-right pass and then collapses runs of spaces and strips
the result; consequently, for every input, the output contains no two
consecutive spaces and no leading or trailing whitespace.  (Complete
marker removal does not hold in general: deleting a marker can splice
the surrounding text into a new marker — see the counterexample.) -/
theorem strip_citations_output_clean (text : String) :
    hasDoubleSpace (strip_citations text).data = false
  ∧ headNotWs (strip_citations text).data = true
  ∧ headNotWs (strip_citations text).data.reverse = true := by
  unfold strip_citations
  by_cases h : text = ""
  · rw [if_pos h]
    subst h
    exact ⟨rfl, rfl, rfl⟩
  · rw [if_neg h]
    exact ⟨pyStrip_noDouble _ (collapseSpaces_noDouble _),
           pyStrip_headNotWs _, pyStrip_rev_headNotWs _⟩

/-- C7 counterexample: the input `"[sou[source: a]rce: b]"` contains a
citation marker, yet the transformed output — `"[source: b]"`, produced
because deleting the inner marker splices `"[sou"` and `"rce: b]"` into
a new marker — still contains one, refuting "applying the transform
yields a text with no remaining citation marker". -/
theorem strip_citations_full_removal_refuted :
    ¬ (hasCitationMarker "[sou[source: a]rce: b]".data = true →
        hasCitationMarker (strip_citations "[sou[source: a]rce: b]").data = false) := by
  decide

/-- A one-channel draft map for the C10 witness. -/
def c10Drafts : List (String × ChannelDraft) :=
  [("linkedin", { channel := "linkedin", body := "b", cta := "c" })]

/-- Witness for C10: with a credential and a Gemini service that always
raises, the error is recorded for the channel and the image map has no
entry for it. -/
theorem image_stage_soft_disabled_isolated_witness :
    ("linkedin", "boom") ∈ (imageLoop (fun _ => .throws "boom") "T" "A" c10Drafts).2.2
  ∧ "linkedin" ∉ (imageLoop (fun _ => .throws "boom") "T" "A" c10Drafts).1.map Prod.fst :=
  image_stage_soft_disabled_isolated.2.2.1 (fun _ => .throws "boom") "T" "A" c10Drafts
    "linkedin" { channel := "linkedin", body := "b", cta := "c" } "boom"
    (by decide) (by decide) rfl

end EventContentGen
